import Mathlib

/-!
Shallow embedding of `sql_diff.py` (BCISOFT/sql-diff): a structural differ
for MySQL dump files.  Strings are modelled as `List Char`; every regular
expression of the source is replaced by an equivalent deterministic matcher
(each quantifier in those patterns is followed by a character it cannot
consume, so maximal munch — or, for the lazy quantifiers, a left-to-right
scan trying the shortest extension first — reproduces the regex engine).
-/

namespace SqlDiff

/-- Strings of the Python source, as lists of characters. -/
abbrev Str := List Char

/-- Conversion from a Lean string literal. -/
def str (s : String) : Str := s.data

/-- Python's `\s` / `str.strip()` whitespace class (ASCII part; the source
only ever meets ASCII whitespace in the dump dialect). -/
def pyIsSpace (c : Char) : Bool :=
  c = ' ' || c = '\t' || c = '\n' || c = '\r' || c = '\x0b' || c = '\x0c'

/-- Python `needle in hay` for strings: `needle` occurs as a contiguous
substring of `hay`. -/
def containsSub (n : Str) : Str → Bool
  | [] => n.isEmpty
  | c :: rest => n.isPrefixOf (c :: rest) || containsSub n rest

/-- Python `s.lstrip()` (whitespace only). -/
def lstrip (s : Str) : Str := s.dropWhile pyIsSpace

/-- Python `s.strip()` (whitespace only). -/
def stripPy (s : Str) : Str := ((lstrip s).reverse.dropWhile pyIsSpace).reverse

/-- Python `s.strip('` ')`: remove leading and trailing backticks and
blanks (used on parsed column-name lists). -/
def isBtSp (c : Char) : Bool := c = '`' || c = ' '

/-- Strip the characters of the set `` "` " `` from both ends. -/
def stripBtSp (s : Str) : Str := ((s.dropWhile isBtSp).reverse.dropWhile isBtSp).reverse

/-- Python `s.split(',\n')` (sql_diff.py:124). -/
def splitCommaNL : Str → List Str
  | [] => [[]]
  | ',' :: '\n' :: rest => [] :: splitCommaNL rest
  | c :: rest =>
    match splitCommaNL rest with
    | [] => [[c]]
    | h :: t => (c :: h) :: t

/-- Python `s.split(',')` (column lists inside key clauses). -/
def splitComma : Str → List Str
  | [] => [[]]
  | ',' :: rest => [] :: splitComma rest
  | c :: rest =>
    match splitComma rest with
    | [] => [[c]]
    | h :: t => (c :: h) :: t

/-- The characters after the first occurrence of `n`, to the end
(nonsense value when `n` does not occur; always guarded by `containsSub`). -/
def dropThroughSub (n : Str) : Str → Str
  | [] => []
  | c :: rest =>
    if n.isPrefixOf (c :: rest) then (c :: rest).drop n.length
    else dropThroughSub n rest

/-- The characters before the first occurrence of `n` (all of them when `n`
does not occur). -/
def takeUntilSub (n : Str) : Str → Str
  | [] => []
  | c :: rest =>
    if n.isPrefixOf (c :: rest) then []
    else c :: takeUntilSub n rest

/-- `line.endswith(')')`. -/
def endsWithParen (s : Str) : Bool :=
  match s.getLast? with
  | some c => c = ')'
  | none => false

/-- Python `.lower()` (ASCII; the enum/set keyword test only involves
ASCII letters). -/
def lowerPy (s : Str) : Str := s.map Char.toLower

/-- Python `\w` (ASCII part), for `DEFAULT CHARSET=(\w+)` / `COLLATE=(\w+)`. -/
def isWordChar (c : Char) : Bool := c.isAlpha || c.isDigit || c = '_'

/-! ### Association lists standing for Python dicts

A Python dict is modelled as an insertion-ordered association list;
`insertA` is `d[k] = v` (replace in place, else append), `lookupA` is
`d[k]`, `keysA` is `d.keys()`. -/

/-- `d[k] = v`: replace the entry in place when the key exists, append
otherwise. -/
def insertA {κ α : Type} [DecidableEq κ] (k : κ) (v : α) : List (κ × α) → List (κ × α)
  | [] => [(k, v)]
  | (k2, v2) :: rest => if k2 = k then (k, v) :: rest else (k2, v2) :: insertA k v rest

/-- `d[k]` as an `Option`. -/
def lookupA {κ α : Type} [DecidableEq κ] (k : κ) : List (κ × α) → Option α
  | [] => none
  | (k2, v) :: rest => if k2 = k then some v else lookupA k rest

/-- `d.keys()`. -/
def keysA {κ α : Type} (m : List (κ × α)) : List κ := m.map Prod.fst

/-- Boolean membership (`k in s` for a Python set / dict-key view). -/
def memB {κ : Type} [DecidableEq κ] (k : κ) (l : List κ) : Bool := decide (k ∈ l)

/-- `List.bind` written out, to keep the differ's report assembly
self-contained. -/
def catMap {α β : Type} (f : α → List β) : List α → List β
  | [] => []
  | x :: xs => f x ++ catMap f xs

/-! ### Data model (sql_diff.py:17-80) -/

/-- `Column` (sql_diff.py:17-37). -/
structure Column where
  name : Str
  data_type : Str
  nullable : Bool
  default : Option Str
  extra : Str
deriving DecidableEq

/-- `Constraint` (sql_diff.py:40-61). -/
structure Constraint where
  name : Str
  constraint_type : Str
  columns : List Str
  referenced_table : Option Str
  referenced_columns : Option (List Str)
deriving DecidableEq

/-- `Table` (sql_diff.py:64-80).  `columns` is the dict name → Column. -/
structure Table where
  name : Str
  columns : List (Str × Column)
  constraints : List Constraint
  charset : Option Str
  collation : Option Str
deriving DecidableEq

/-- `Constraint.__eq__` (sql_diff.py:49-56): field-wise over all five
fields, the declared name included. -/
def constraintBEq (a b : Constraint) : Bool :=
  decide (a.name = b.name) && decide (a.constraint_type = b.constraint_type) &&
  decide (a.columns = b.columns) && decide (a.referenced_table = b.referenced_table) &&
  decide (a.referenced_columns = b.referenced_columns)

/-- Python `set(xs) == set(ys)` under `Constraint.__eq__`/`__hash__`
(sql_diff.py:78): mutual membership. -/
def constraintSetEq (xs ys : List Constraint) : Bool :=
  xs.all (fun x => ys.any (fun y => constraintBEq x y)) &&
  ys.all (fun y => xs.any (fun x => constraintBEq x y))

/-- Python dict equality for the `columns` field (sql_diff.py:77): same
keys, equal value at each key. -/
def columnsDictEq (m1 m2 : List (Str × Column)) : Bool :=
  m1.all (fun p => decide (lookupA p.1 m2 = some p.2)) &&
  m2.all (fun p => decide (lookupA p.1 m1 = some p.2))

/-- `Table.__eq__` (sql_diff.py:73-80). -/
def tableBEq (a b : Table) : Bool :=
  decide (a.name = b.name) && columnsDictEq a.columns b.columns &&
  constraintSetEq a.constraints b.constraints &&
  decide (a.charset = b.charset) && decide (a.collation = b.collation)

/-! ### Column parsing (sql_diff.py:154-191) -/

/-- ``re.match(r"`([^`]+)`", s)`` at the start: a backtick, a nonempty run
of non-backtick characters, a backtick; yields the run and the remainder. -/
def takeBtName (s : Str) : Option (Str × Str) :=
  match s with
  | c :: r =>
    if c = '`' then
      if (r.takeWhile (fun d => d != '`')).isEmpty then none
      else
        match r.drop (r.takeWhile (fun d => d != '`')).length with
        | _ :: r2 => some (r.takeWhile (fun d => d != '`'), r2)
        | [] => none
    else none
  | [] => none

/-- `\s+` at the start of `s` (greedy; in every source pattern the next
item cannot consume whitespace). -/
def matchWs (s : Str) : Option Str :=
  if (s.takeWhile pyIsSpace).isEmpty then none
  else some (s.drop (s.takeWhile pyIsSpace).length)

/-- ``re.match(r"`([^`]+)`\s+", line)`` (sql_diff.py:155): the column name
and the text after the whitespace run. -/
def matchColumnHead (line : Str) : Option (Str × Str) :=
  match takeBtName line with
  | some (nm, r) =>
    match matchWs r with
    | some r2 => some (nm, r2)
    | none => none
  | none => none

/-- `\s*\(([^)]+)\)` at the start of `s`: optional whitespace, an opening
parenthesis, a nonempty run free of `)`, a closing parenthesis. -/
def matchParenArg (s : Str) : Option (Str × Str) :=
  let s1 := s.dropWhile pyIsSpace
  match s1 with
  | c :: r =>
    if c = '(' then
      let ins := r.takeWhile (fun d => d != ')')
      if ins.isEmpty then none
      else
        match r.drop ins.length with
        | d :: r2 => if d = ')' then some (ins, r2) else none
        | [] => none
    else none
  | [] => none

/-- `rest_of_line.lower().startswith(('enum', 'set'))` (sql_diff.py:163). -/
def startsWithEnumSet (rest : Str) : Bool :=
  (str "enum").isPrefixOf (lowerPy rest) || (str "set").isPrefixOf (lowerPy rest)

/-- ``re.match(r"(enum|set)\s*\(([^)]+)\)", rest, re.IGNORECASE)``
(sql_diff.py:165): the keyword as written, the parenthesized payload, and
the remainder after the closing parenthesis. -/
def matchEnumSet (s : Str) : Option (Str × Str × Str) :=
  if lowerPy (s.take 4) = str "enum" then
    match matchParenArg (s.drop 4) with
    | some (ins, r2) => some (s.take 4, ins, r2)
    | none => none
  else if lowerPy (s.take 3) = str "set" then
    match matchParenArg (s.drop 3) with
    | some (ins, r2) => some (s.take 3, ins, r2)
    | none => none
  else none

/-- Python `rest.split(None, 1)` turned into `(data_type, attributes)`
(sql_diff.py:171-178): `none` corresponds to the empty token list, where
the source's `data_type_parts[0]` would fail — no column is produced. -/
def splitNone1 (s : Str) : Option (Str × Str) :=
  let s1 := s.dropWhile pyIsSpace
  if s1.isEmpty then none
  else
    let tok := s1.takeWhile (fun c => !(pyIsSpace c))
    some (tok, (s1.drop tok.length).dropWhile pyIsSpace)

/-- The data type and attribute tail of a column clause
(sql_diff.py:162-178). -/
def splitTypeAttrs (rest : Str) : Option (Str × Str) :=
  if startsWithEnumSet rest then
    match matchEnumSet rest with
    | some (kw, ins, after) => some (kw ++ '(' :: ins ++ [')'], stripPy after)
    | none => splitNone1 rest
  else splitNone1 rest

/-- ``re.search(r"DEFAULT\s+([^,\s]+)", attrs)`` tried at one position:
the literal, a whitespace run, then a nonempty run free of commas and
whitespace. -/
def matchDefaultAt (s : Str) : Option Str :=
  if (str "DEFAULT").isPrefixOf s then
    let r := s.drop 7
    let ws := r.takeWhile pyIsSpace
    if ws.isEmpty then none
    else
      let tok := (r.drop ws.length).takeWhile (fun c => !(pyIsSpace c) && c != ',')
      if tok.isEmpty then none else some tok
  else none

/-- ``re.search(r"DEFAULT\s+([^,\s]+)", attrs)`` (sql_diff.py:183):
leftmost match. -/
def searchDefault : Str → Option Str
  | [] => none
  | c :: rest =>
    match matchDefaultAt (c :: rest) with
    | some tok => some tok
    | none => searchDefault rest

/-- Parsing one column clause (sql_diff.py:155-191). -/
def parseColumnLine (line : Str) : Option Column :=
  match matchColumnHead line with
  | none => none
  | some (nm, rest) =>
    match splitTypeAttrs rest with
    | none => none
    | some (dt, attrs) =>
      some ⟨nm, dt,
        !(containsSub (str "NOT NULL") attrs),
        searchDefault attrs,
        if containsSub (str "AUTO_INCREMENT") attrs then str "AUTO_INCREMENT" else []⟩

/-! ### Constraint parsing (sql_diff.py:195-225) -/

/-- `\s+\(([^)]+)\)` at the start: a whitespace run then a parenthesized
nonempty run free of `)`. -/
def matchWsParen (s : Str) : Option (Str × Str) :=
  match matchWs s with
  | some s1 =>
    match s1 with
    | c :: r =>
      if c = '(' then
        let ins := r.takeWhile (fun d => d != ')')
        if ins.isEmpty then none
        else
          match r.drop ins.length with
          | d :: r2 => if d = ')' then some (ins, r2) else none
          | [] => none
      else none
    | [] => none
  | none => none

/-- ``\s+`([^`]+)` `` at the start: a whitespace run then a backtick-quoted
name. -/
def matchWsBtName (s : Str) : Option (Str × Str) :=
  match matchWs s with
  | some s1 => takeBtName s1
  | none => none

/-- The listed column names, backticks and blanks stripped
(`[col.strip('` ') for col in group.split(',')]`). -/
def parseColList (ins : Str) : List Str := (splitComma ins).map stripBtSp

/-- ``re.match(r"PRIMARY KEY\s+\(([^)]+)\)", line)`` (sql_diff.py:195). -/
def matchPK (line : Str) : Option (List Str) :=
  if (str "PRIMARY KEY").isPrefixOf line then
    match matchWsParen (line.drop 11) with
    | some (ins, _) => some (parseColList ins)
    | none => none
  else none

/-- ``re.match(r"UNIQUE KEY\s+`([^`]+)`\s+\(([^)]+)\)", line)``
(sql_diff.py:202). -/
def matchUnique (line : Str) : Option (Str × List Str) :=
  if (str "UNIQUE KEY").isPrefixOf line then
    match matchWsBtName (line.drop 10) with
    | some (nm, r) =>
      match matchWsParen r with
      | some (ins, _) => some (nm, parseColList ins)
      | none => none
    | none => none
  else none

/-- ``re.match(r"CONSTRAINT\s+`([^`]+)`\s+FOREIGN KEY\s+\(([^)]+)\)\s+REFERENCES\s+`([^`]+)`\s+\(([^)]+)\)", line)``
(sql_diff.py:210). -/
def matchFK (line : Str) : Option (Str × List Str × Str × List Str) :=
  if (str "CONSTRAINT").isPrefixOf line then
    match matchWsBtName (line.drop 10) with
    | some (nm, r1) =>
      match matchWs r1 with
      | some r1b =>
        if (str "FOREIGN KEY").isPrefixOf r1b then
          match matchWsParen (r1b.drop 11) with
          | some (cols, r2) =>
            match matchWs r2 with
            | some r2b =>
              if (str "REFERENCES").isPrefixOf r2b then
                match matchWsBtName (r2b.drop 10) with
                | some (rt, r3) =>
                  match matchWsParen r3 with
                  | some (rcols, _) => some (nm, parseColList cols, rt, parseColList rcols)
                  | none => none
                | none => none
              else none
            | none => none
          | none => none
        else none
      | none => none
    | none => none
  else none

/-- ``re.match(r"KEY\s+`([^`]+)`\s+\(([^)]+)\)", line)`` (sql_diff.py:220). -/
def matchIdx (line : Str) : Option (Str × List Str) :=
  if (str "KEY").isPrefixOf line then
    match matchWsBtName (line.drop 3) with
    | some (nm, r) =>
      match matchWsParen r with
      | some (ins, _) => some (nm, parseColList ins)
      | none => none
    | none => none
  else none

/-- `line.startswith(('PRIMARY KEY', 'UNIQUE KEY', 'KEY', 'CONSTRAINT', 'FOREIGN KEY'))`
(sql_diff.py:154 and :238). -/
def startsKw (line : Str) : Bool :=
  (str "PRIMARY KEY").isPrefixOf line || (str "UNIQUE KEY").isPrefixOf line ||
  (str "KEY").isPrefixOf line || (str "CONSTRAINT").isPrefixOf line ||
  (str "FOREIGN KEY").isPrefixOf line

/-- `line.startswith(('PRIMARY KEY', 'UNIQUE KEY', 'KEY'))` (sql_diff.py:236). -/
def startsKw3 (line : Str) : Bool :=
  (str "PRIMARY KEY").isPrefixOf line || (str "UNIQUE KEY").isPrefixOf line ||
  (str "KEY").isPrefixOf line

/-! ### The lexical segmenter (sql_diff.py:124-147, 230-240) -/

/-- `MySQLDumpParser._is_line_complete` (sql_diff.py:230-240).  The source's
`line.split('REFERENCES')[1]` — the text strictly between the first
occurrence of `REFERENCES` and the next one (to the end when it occurs only
once) — is `takeUntilSub (str "REFERENCES") (dropThroughSub (str "REFERENCES") line)`;
it is only inspected under the guard `'REFERENCES' in line`. -/
def isLineComplete (line : Str) : Bool :=
  if (str "CONSTRAINT").isPrefixOf line && containsSub (str "REFERENCES") line &&
      containsSub [')'] (takeUntilSub (str "REFERENCES") (dropThroughSub (str "REFERENCES") line)) then
    true
  else if startsKw3 line && endsWithParen line then
    true
  else if containsSub ['`'] line && !(startsKw line) then
    true
  else
    false

/-- One step of the clause accumulator (sql_diff.py:130-144): the state is
(cleaned lines so far, pending fragment). -/
def segStep (st : List Str × Str) (l0 : Str) : List Str × Str :=
  let l := stripPy l0
  if l.isEmpty then st
  else
    let cur := if st.2.isEmpty then l else st.2 ++ str ", " ++ l
    if isLineComplete cur then (st.1 ++ [cur], []) else (st.1, cur)

/-- The lexical segmenter (sql_diff.py:124-147): split the table body on
`,\n`, strip each piece, re-join incomplete fragments, flush a trailing
pending fragment. -/
def segmentLines (body : Str) : List Str :=
  let pieces := (splitCommaNL body).map stripPy
  let fin := pieces.foldl segStep ([], [])
  if fin.2.isEmpty then fin.1 else fin.1 ++ [fin.2]

/-! ### Clause classification (sql_diff.py:150-225) -/

/-- The key/constraint branch of the clause loop (sql_diff.py:195-225):
tried in the source's order, first match wins, an unmatched clause is
dropped. -/
def tryConstraints (acc : List (Str × Column) × List Constraint) (line : Str) :
    List (Str × Column) × List Constraint :=
  match matchPK line with
  | some cols => (acc.1, acc.2 ++ [⟨str "PRIMARY", str "PRIMARY KEY", cols, none, none⟩])
  | none =>
  match matchUnique line with
  | some (nm, cols) => (acc.1, acc.2 ++ [⟨nm, str "UNIQUE", cols, none, none⟩])
  | none =>
  match matchFK line with
  | some (nm, cols, rt, rcols) =>
      (acc.1, acc.2 ++ [⟨nm, str "FOREIGN KEY", cols, some rt, some rcols⟩])
  | none =>
  match matchIdx line with
  | some (nm, cols) => (acc.1, acc.2 ++ [⟨nm, str "INDEX", cols, none, none⟩])
  | none => acc

/-- One iteration of the clause loop (sql_diff.py:150-225). -/
def parseBodyLine (acc : List (Str × Column) × List Constraint) (line0 : Str) :
    List (Str × Column) × List Constraint :=
  if !(startsKw (stripPy line0)) then
    match parseColumnLine (stripPy line0) with
    | some col => (insertA col.name col acc.1, acc.2)
    | none => tryConstraints acc (stripPy line0)
  else tryConstraints acc (stripPy line0)

/-- Columns and constraints of one table body (sql_diff.py:108-225). -/
def parseTableBody (body : Str) : List (Str × Column) × List Constraint :=
  (segmentLines body).foldl parseBodyLine ([], [])

/-! ### Table options and the CREATE TABLE matcher (sql_diff.py:100-121) -/

/-- `re.search(lit + r"(\w+)", s)` tried at one position. -/
def matchLitWordAt (lit : Str) (s : Str) : Option Str :=
  if lit.isPrefixOf s then
    let w := (s.drop lit.length).takeWhile isWordChar
    if w.isEmpty then none else some w
  else none

/-- `re.search` for a literal followed by `(\w+)` (sql_diff.py:115, 119):
leftmost occurrence. -/
def searchLitWord (lit : Str) : Str → Option Str
  | [] => none
  | c :: rest =>
    match matchLitWordAt lit (c :: rest) with
    | some w => some w
    | none => searchLitWord lit rest

/-- The lookahead `(?=\n|$)` after the statement's semicolon. -/
def lookNL : Str → Bool
  | [] => true
  | c :: _ => c = '\n'

/-- The lazy `[\s\S]+?;(?=\n|$)` after the literal `ENGINE`: scan for the
earliest semicolon preceded by at least one group character and followed by
a newline or the end; yields (group characters, text after the `;`). -/
def scanSemiAux (acc : Str) : Str → Option (Str × Str)
  | [] => none
  | c :: rest =>
    if c = ';' && lookNL rest then some (acc.reverse, rest)
    else scanSemiAux (c :: acc) rest

/-- `[\s\S]+?;(?=\n|$)`: the first character always belongs to the group. -/
def scanSemi : Str → Option (Str × Str)
  | [] => none
  | c :: rest => scanSemiAux [c] rest

/-- `\s*(ENGINE[\s\S]+?);(?=\n|$)` after the body's closing parenthesis:
yields (the options group, the text after the `;`). -/
def matchTailAfterParen (s : Str) : Option (Str × Str) :=
  if (str "ENGINE").isPrefixOf (s.dropWhile pyIsSpace) then
    match scanSemi ((s.dropWhile pyIsSpace).drop 6) with
    | some (g, rest) => some (str "ENGINE" ++ g, rest)
    | none => none
  else none

/-- The lazy `([\s\S]+?)\)` before the options tail: grow the body one
character at a time; at each closing parenthesis (body nonempty) try the
tail, on failure the parenthesis joins the body. -/
def scanBody (acc : Str) : Str → Option (Str × Str × Str)
  | [] => none
  | c :: rest =>
    if c = ')' && !acc.isEmpty then
      match matchTailAfterParen rest with
      | some (opts, r2) => some (acc.reverse, opts, r2)
      | none => scanBody (c :: acc) rest
    else scanBody (c :: acc) rest

/-- `p.isPrefixOf s` then drop it. -/
def eatLit (p : Str) (s : Str) : Option Str :=
  if p.isPrefixOf s then some (s.drop p.length) else none

/-- ``re.match`` of the whole pattern
``CREATE TABLE\s+`([^`]+)`\s+\(([\s\S]+?)\)\s*(ENGINE[\s\S]+?);(?=\n|$)``
(sql_diff.py:100) at the start of `s`: yields (table name, body, options
tail, text after the match). -/
def matchCreateAt (s : Str) : Option (Str × Str × Str × Str) :=
  (eatLit (str "CREATE TABLE") s).bind fun s1 =>
  (matchWs s1).bind fun s2 =>
  (takeBtName s2).bind fun p =>
  (matchWs p.2).bind fun s4 =>
  match s4 with
  | c :: r =>
    if c = '(' then (scanBody [] r).map (fun q => (p.1, q))
    else none
  | [] => none

/-! ### Length bounds used for the termination of the dump scan -/

lemma length_dropWhile_le (p : Char → Bool) (l : Str) : (l.dropWhile p).length ≤ l.length := by
  induction l with
  | nil => simp [List.dropWhile]
  | cons c rest ih =>
    simp only [List.dropWhile]
    split
    · simp; omega
    · simp

lemma scanSemiAux_length : ∀ (s acc g r : Str), scanSemiAux acc s = some (g, r) →
    r.length < s.length := by
  intro s
  induction s with
  | nil => intro acc g r h; simp [scanSemiAux] at h
  | cons c rest ih =>
    intro acc g r h
    simp only [scanSemiAux] at h
    split at h
    · cases h; simp
    · have := ih (c :: acc) g r h
      simp; omega

lemma scanSemi_length (s g r : Str) (h : scanSemi s = some (g, r)) : r.length < s.length := by
  cases s with
  | nil => simp [scanSemi] at h
  | cons c rest =>
    have := scanSemiAux_length rest [c] g r h
    simp; omega

lemma matchTailAfterParen_length (s o r : Str) (h : matchTailAfterParen s = some (o, r)) :
    r.length < s.length := by
  unfold matchTailAfterParen at h
  split at h
  · cases hs : scanSemi ((s.dropWhile pyIsSpace).drop 6) with
    | none => rw [hs] at h; simp at h
    | some p =>
      obtain ⟨g, rest⟩ := p
      rw [hs] at h
      cases h
      have h1 := scanSemi_length _ _ _ hs
      have h2 : ((s.dropWhile pyIsSpace).drop 6).length = (s.dropWhile pyIsSpace).length - 6 :=
        List.length_drop _ _
      have h3 : (s.dropWhile pyIsSpace).length ≤ s.length := length_dropWhile_le _ _
      omega
  · simp at h

lemma scanBody_length : ∀ (s acc b o r : Str), scanBody acc s = some (b, o, r) →
    r.length < s.length := by
  intro s
  induction s with
  | nil => intro acc b o r h; simp [scanBody] at h
  | cons c rest ih =>
    intro acc b o r h
    simp only [scanBody] at h
    split at h
    · cases ht : matchTailAfterParen rest with
      | none =>
        rw [ht] at h
        have := ih (c :: acc) b o r h
        simp; omega
      | some p =>
        obtain ⟨opts, r2⟩ := p
        rw [ht] at h
        cases h
        have := matchTailAfterParen_length _ _ _ ht
        simp; omega
    · have := ih (c :: acc) b o r h
      simp; omega

lemma eatLit_length (p s t : Str) (h : eatLit p s = some t) : t.length ≤ s.length := by
  unfold eatLit at h
  split at h
  · cases h; simp [List.length_drop]
  · simp at h

lemma matchWs_length (s t : Str) (h : matchWs s = some t) : t.length ≤ s.length := by
  unfold matchWs at h
  split at h
  · simp at h
  · cases h; simp [List.length_drop]

lemma takeBtName_length (s nm r : Str) (h : takeBtName s = some (nm, r)) :
    r.length ≤ s.length := by
  unfold takeBtName at h
  cases s with
  | nil => simp at h
  | cons c rest =>
    simp only at h
    split at h
    · split at h
      · simp at h
      · cases hd : rest.drop (rest.takeWhile (fun d => d != '`')).length with
        | nil => rw [hd] at h; simp at h
        | cons d r2 =>
          rw [hd] at h
          cases h
          have h1 : (rest.drop (rest.takeWhile (fun d => d != '`')).length).length ≤ rest.length := by
            rw [List.length_drop]; omega
          rw [hd] at h1
          simp at h1 ⊢
          omega
    · simp at h

lemma matchCreateAt_length (s nm b o r : Str) (h : matchCreateAt s = some (nm, b, o, r)) :
    r.length < s.length := by
  unfold matchCreateAt at h
  rw [Option.bind_eq_some] at h
  obtain ⟨s1, h1, h⟩ := h
  rw [Option.bind_eq_some] at h
  obtain ⟨s2, h2, h⟩ := h
  rw [Option.bind_eq_some] at h
  obtain ⟨p, h3, h⟩ := h
  rw [Option.bind_eq_some] at h
  obtain ⟨s4, h4, h⟩ := h
  cases s4 with
  | nil => simp at h
  | cons c rest =>
    simp only at h
    split at h
    · rw [Option.map_eq_some'] at h
      obtain ⟨q, h5, hq⟩ := h
      obtain ⟨body, opts, rest2⟩ := q
      obtain ⟨nmp, sp⟩ := p
      simp only [Prod.mk.injEq] at hq
      have hr : rest2 = r := hq.2.2.2
      subst hr
      have l5 := scanBody_length _ _ _ _ _ h5
      have l4 := matchWs_length _ _ h4
      have l3 := takeBtName_length _ _ _ h3
      have l2 := matchWs_length _ _ h2
      have l1 := eatLit_length _ _ _ h1
      simp only [List.length_cons] at l4
      simp only at l3
      omega
    · simp at h

/-- `re.finditer` of the CREATE TABLE pattern (sql_diff.py:101): scan left
to right, restart after each match's end.  Structural recursion on a fuel
counter so that the kernel can evaluate the scan; by
`matchCreateAt_length` every step strictly shrinks the text, so any fuel
above the text's length yields the same result (`findCreatesAux_fuel`). -/
def findCreatesAux : Nat → Str → List (Str × Str × Str)
  | 0, _ => []
  | _ + 1, [] => []
  | n + 1, c :: rest =>
    match matchCreateAt (c :: rest) with
    | some (nm, body, opts, restAfter) => (nm, body, opts) :: findCreatesAux n restAfter
    | none => findCreatesAux n rest

/-- All matches of the CREATE TABLE pattern, in text order. -/
def findCreates (s : Str) : List (Str × Str × Str) := findCreatesAux (s.length + 1) s

lemma findCreatesAux_fuel : ∀ (n m : Nat) (s : Str), s.length < n → s.length < m →
    findCreatesAux n s = findCreatesAux m s := by
  intro n
  induction n with
  | zero => intro m s h1; omega
  | succ n ih =>
    intro m s h1 h2
    cases m with
    | zero => omega
    | succ m =>
      cases s with
      | nil => rfl
      | cons c rest =>
        simp only [findCreatesAux]
        cases h : matchCreateAt (c :: rest) with
        | none =>
          have hr : rest.length < n := by simp at h1; omega
          have hr2 : rest.length < m := by simp at h2; omega
          dsimp only
          rw [ih m rest hr hr2]
        | some q =>
          obtain ⟨nm, body, opts, restAfter⟩ := q
          have hl := matchCreateAt_length _ _ _ _ _ h
          have hr : restAfter.length < n := by simp at h1 hl; omega
          have hr2 : restAfter.length < m := by simp at h2 hl; omega
          dsimp only
          rw [ih m restAfter hr hr2]

/-- The Schema: the parser's `tables` dict, table name → Table. -/
abbrev Schema := List (Str × Table)

/-- One table's entry (sql_diff.py:103-228): charset and collation from
the options tail, columns and constraints from the body. -/
def buildTable (nm body opts : Str) : Table :=
  let cc := parseTableBody body
  ⟨nm, cc.1, cc.2, searchLitWord (str "DEFAULT CHARSET=") opts,
    searchLitWord (str "COLLATE=") opts⟩

/-- `MySQLDumpParser.parse` on the dump text (sql_diff.py:91-228): each
match adds (or, for a duplicate name, overwrites) one Table. -/
def parseDumpTables (content : Str) : Schema :=
  (findCreates content).foldl (fun acc m => insertA m.1 (buildTable m.1 m.2.1 m.2.2) acc) []

/-- The parser's failure kind: the spec's `MissingFileError`
(`FileNotFoundError`, sql_diff.py:93-94). -/
inductive DumpError where
  | missingFile (path : String)
deriving DecidableEq

/-- `MySQLDumpParser.__init__`/`parse` with the file system passed
explicitly (sql_diff.py:86-97): a path that maps to no content raises
`MissingFileError`, otherwise the dump text is parsed. -/
def parseDumpFile (fs : String → Option Str) (path : String) : Except DumpError Schema :=
  match fs path with
  | none => Except.error (DumpError.missingFile path)
  | some content => Except.ok (parseDumpTables content)

/-! ### Sorting (Python `sorted`)

Python sorts strings by code point and key tuples lexicographically; a
stable insertion sort over the corresponding strict orders. -/

/-- `a < b` on strings, by code point. -/
def strLtB : Str → Str → Bool
  | [], [] => false
  | [], _ :: _ => true
  | _ :: _, [] => false
  | a :: as, b :: bs => if a.val < b.val then true else if b.val < a.val then false else strLtB as bs

/-- `a < b` on lists of strings (Python tuples of strings). -/
def listStrLtB : List Str → List Str → Bool
  | [], [] => false
  | [], _ :: _ => true
  | _ :: _, [] => false
  | a :: as, b :: bs => if strLtB a b then true else if strLtB b a then false else listStrLtB as bs

/-- `a < b` on a constraint identity key `(kind, columns)`. -/
def keyLtB (a b : Str × List Str) : Bool :=
  if strLtB a.1 b.1 then true else if strLtB b.1 a.1 then false else listStrLtB a.2 b.2

/-- Insert into a sorted list: before the first element it is not
strictly above. -/
def insSorted {α : Type} (lt : α → α → Bool) (x : α) : List α → List α
  | [] => [x]
  | y :: ys => if lt y x then y :: insSorted lt x ys else x :: y :: ys

/-- Stable insertion sort (Python `sorted`). -/
def sortBy {α : Type} (lt : α → α → Bool) (l : List α) : List α := l.foldr (insSorted lt) []

/-- `"\n".join(lines)` (sql_diff.py:359). -/
def joinNL : List Str → Str
  | [] => []
  | [l] => l
  | l :: ls => l ++ '\n' :: joinNL ls

/-! ### The structural differ (sql_diff.py:243-359) -/

/-- Python `f"{opt}"` for an `Optional[str]`. -/
def showOpt (o : Option Str) : Str :=
  match o with
  | none => str "None"
  | some s => s

/-- The rendering of a nullability flag (sql_diff.py:319-320). -/
def showNullable (b : Bool) : Str := if b then str "NULL" else str "NOT NULL"

/-- `tables1 - tables2`, iterated sorted (sql_diff.py:259, 262): the
tables the report calls removed. -/
def removedTableNames (p1 p2 : Schema) : List Str :=
  sortBy strLtB ((keysA p1).filter (fun t => !(memB t (keysA p2))))

/-- `tables2 - tables1`, iterated sorted (sql_diff.py:267, 270): the
tables the report calls added. -/
def addedTableNames (p1 p2 : Schema) : List Str :=
  sortBy strLtB ((keysA p2).filter (fun t => !(memB t (keysA p1))))

/-- `tables1.intersection(tables2)`, iterated sorted (sql_diff.py:275-276). -/
def commonTableNames (p1 p2 : Schema) : List Str :=
  sortBy strLtB ((keysA p1).filter (fun t => memB t (keysA p2)))

/-- The detail block of one modified column (sql_diff.py:314-325). -/
def colModLines (cname : Str) (c1 c2 : Column) : List Str :=
  if c1 = c2 then []
  else
    (str "  Colonne modifiée: " ++ cname) ::
    ((if c1.data_type = c2.data_type then []
      else [str "    Type: " ++ c1.data_type ++ str " -> " ++ c2.data_type]) ++
     (if c1.nullable = c2.nullable then []
      else [str "    Nullable: " ++ showNullable c1.nullable ++ str " -> " ++ showNullable c2.nullable]) ++
     (if c1.default = c2.default then []
      else [str "    Default: " ++ showOpt c1.default ++ str " -> " ++ showOpt c2.default]) ++
     (if c1.extra = c2.extra then []
      else [str "    Extra: " ++ c1.extra ++ str " -> " ++ c2.extra]))

/-- One common column's contribution (sql_diff.py:310-325); the lookups
cannot miss for a name common to both tables. -/
def colPairLines (t1 t2 : Table) (c : Str) : List Str :=
  match lookupA c t1.columns, lookupA c t2.columns with
  | some c1, some c2 => colModLines c c1 c2
  | _, _ => []

/-- The identity key correlating constraints across the two dumps
(sql_diff.py:328-329): `(c.constraint_type, tuple(c.columns))`. -/
def constraintKey (c : Constraint) : Str × List Str := (c.constraint_type, c.columns)

/-- `{(c.constraint_type, tuple(c.columns)): c for c in constraints}`
(sql_diff.py:328-329): a dict comprehension, later entries overwriting. -/
def constraintMap (cs : List Constraint) : List ((Str × List Str) × Constraint) :=
  cs.foldl (fun m c => insertA (constraintKey c) c m) []

/-- The identity keys present only on the first side, iterated sorted
(sql_diff.py:332, 335). -/
def missingConstraintKeys (t1 t2 : Table) : List (Str × List Str) :=
  sortBy keyLtB ((keysA (constraintMap t1.constraints)).filter
    (fun k => !(memB k (keysA (constraintMap t2.constraints)))))

/-- The identity keys present only on the second side, iterated sorted
(sql_diff.py:343, 346). -/
def extraConstraintKeys (t1 t2 : Table) : List (Str × List Str) :=
  sortBy keyLtB ((keysA (constraintMap t2.constraints)).filter
    (fun k => !(memB k (keysA (constraintMap t1.constraints)))))

/-- `", ".join(items)`. -/
def joinCommaSp : List Str → Str
  | [] => []
  | [l] => l
  | l :: ls => l ++ str ", " ++ joinCommaSp ls

/-- The `REFERENCES …` tail of a rendered foreign key
(sql_diff.py:338, 349); for the parser's constraints the two reference
fields are populated exactly when the kind is FOREIGN KEY, so the `None`
fallbacks are never rendered. -/
def fkSuffix (c : Constraint) : Str :=
  if c.constraint_type = str "FOREIGN KEY" then
    str " REFERENCES " ++ showOpt c.referenced_table ++ str " (" ++
      (match c.referenced_columns with
       | some l => joinCommaSp l
       | none => str "None") ++ str ")"
  else []

/-- One removed/added constraint's report line (sql_diff.py:337-340,
348-351). -/
def constraintLine (sign : Char) (c : Constraint) : Str :=
  str "    " ++ sign :: ' ' :: c.constraint_type ++ ' ' :: c.name ++ str " (" ++
    joinCommaSp c.columns ++ str ")" ++ fkSuffix c

/-- The constraint part of one table's diff block (sql_diff.py:327-351). -/
def constraintDiffLines (t1 t2 : Table) : List Str :=
  (if (missingConstraintKeys t1 t2).isEmpty then []
   else str "  Contraintes supprimées:" ::
     (missingConstraintKeys t1 t2).map (fun k =>
       match lookupA k (constraintMap t1.constraints) with
       | some c => constraintLine '-' c
       | none => [])) ++
  (if (extraConstraintKeys t1 t2).isEmpty then []
   else str "  Contraintes ajoutées:" ::
     (extraConstraintKeys t1 t2).map (fun k =>
       match lookupA k (constraintMap t2.constraints) with
       | some c => constraintLine '+' c
       | none => []))

/-- One common table's diff block, without its header (sql_diff.py:280-351). -/
def tableDiffLines (t1 t2 : Table) : List Str :=
  (if t1.charset = t2.charset then []
   else [str "  Différence de jeu de caractères: " ++ showOpt t1.charset ++ str " -> " ++ showOpt t2.charset]) ++
  (if t1.collation = t2.collation then []
   else [str "  Différence de collation: " ++ showOpt t1.collation ++ str " -> " ++ showOpt t2.collation]) ++
  (if ((keysA t1.columns).filter (fun c => !(memB c (keysA t2.columns)))).isEmpty then []
   else str "  Colonnes supprimées:" ::
     (sortBy strLtB ((keysA t1.columns).filter (fun c => !(memB c (keysA t2.columns))))).map
       (fun c => str "    - " ++ c)) ++
  (if ((keysA t2.columns).filter (fun c => !(memB c (keysA t1.columns)))).isEmpty then []
   else str "  Colonnes ajoutées:" ::
     (sortBy strLtB ((keysA t2.columns).filter (fun c => !(memB c (keysA t1.columns))))).map
       (fun c => str "    + " ++ c ++ ' ' ::
         (match lookupA c t2.columns with
          | some col => col.data_type
          | none => []))) ++
  catMap (colPairLines t1 t2)
    (sortBy strLtB ((keysA t1.columns).filter (fun c => memB c (keysA t2.columns)))) ++
  constraintDiffLines t1 t2

/-- One common table's contribution to the report (sql_diff.py:353-357). -/
def tableBlock (p1 p2 : Schema) (nm : Str) : List Str :=
  match lookupA nm p1, lookupA nm p2 with
  | some t1, some t2 =>
    if (tableDiffLines t1 t2).isEmpty then []
    else (str "Différences pour la table `" ++ nm ++ str "`:") :: tableDiffLines t1 t2 ++ [[]]
  | _, _ => []

/-- The fixed "no differences" sentinel (sql_diff.py:359). -/
def sentinel : Str := str "Aucune différence de structure trouvée."

/-- `SQLDiff.compare` (sql_diff.py:250-359): the removed-table block, the
added-table block, then each common table's block; the sentinel when
nothing was collected. -/
def compareSchemas (p1 p2 : Schema) : Str :=
  let result :=
    (if (removedTableNames p1 p2).isEmpty then []
     else (str "Tables présentes dans le premier fichier mais absentes dans le second:" ::
       (removedTableNames p1 p2).map (fun t => str "  - " ++ t)) ++ [[]]) ++
    (if (addedTableNames p1 p2).isEmpty then []
     else (str "Tables présentes dans le second fichier mais absentes dans le premier:" ::
       (addedTableNames p1 p2).map (fun t => str "  - " ++ t)) ++ [[]]) ++
    catMap (tableBlock p1 p2) (commonTableNames p1 p2)
  if result.isEmpty then sentinel else joinNL result

/-! ### The spec's wording of the completeness predicate (for claim C4) -/

/-- A backtick-quoted identifier starts here: a backtick, at least one
other character, then a closing backtick. -/
def btIdentAt (s : Str) : Bool :=
  match s with
  | c :: rest =>
    c = '`' && !(rest.takeWhile (fun d => d != '`')).isEmpty &&
      !(rest.drop (rest.takeWhile (fun d => d != '`')).length).isEmpty
  | [] => false

/-- The fragment contains a backtick-quoted identifier somewhere. -/
def hasBtIdent : Str → Bool
  | [] => false
  | c :: rest => btIdentAt (c :: rest) || hasBtIdent rest

/-- The completeness predicate exactly as the specification words it: rule
one looks for a closing parenthesis anywhere after the first `REFERENCES`
(to the end of the fragment), and rule three asks for a whole
backtick-quoted identifier. -/
def claimLineComplete (line : Str) : Bool :=
  if (str "CONSTRAINT").isPrefixOf line && containsSub (str "REFERENCES") line &&
      containsSub [')'] (dropThroughSub (str "REFERENCES") line) then
    true
  else if startsKw3 line && endsWithParen line then
    true
  else if hasBtIdent line && !(startsKw line) then
    true
  else
    false

/-- The completeness predicate as the amended claim words it: rule one
looks for a closing parenthesis strictly between the first occurrence of
`REFERENCES` and the next one (to the end when there is no second
occurrence), and rule three asks only for a backtick character. -/
def amendedLineComplete (line : Str) : Bool :=
  if (str "CONSTRAINT").isPrefixOf line && containsSub (str "REFERENCES") line &&
      containsSub [')'] (takeUntilSub (str "REFERENCES") (dropThroughSub (str "REFERENCES") line)) then
    true
  else if startsKw3 line && endsWithParen line then
    true
  else if containsSub ['`'] line && !(startsKw line) then
    true
  else
    false

/-! ### Concrete inputs used by the claims -/

/-- The foreign key of the spec's renaming example: on `(user_id)`,
referencing `users(id)`. -/
def fkConstraint (nm : String) : Constraint :=
  ⟨str nm, str "FOREIGN KEY", [str "user_id"], some (str "users"), some [str "id"]⟩

/-- The `user_id` column of the example table. -/
def userIdColumn : Column := ⟨str "user_id", str "int", false, none, []⟩

/-- The example table `u`, carrying one foreign key named `nm`. -/
def fkTable (nm : String) : Table :=
  ⟨str "u", [(str "user_id", userIdColumn)], [fkConstraint nm], none, none⟩

/-- A dump declaring table `u` with the foreign key named `fk_1`. -/
def dumpFk1 : Str :=
  str "CREATE TABLE `u` (\n  `user_id` int NOT NULL,\n  CONSTRAINT `fk_1` FOREIGN KEY (`user_id`) REFERENCES `users` (`id`)\n) ENGINE=InnoDB;\n"

/-- The same dump with the foreign key renamed to `fk_2`. -/
def dumpFk2 : Str :=
  str "CREATE TABLE `u` (\n  `user_id` int NOT NULL,\n  CONSTRAINT `fk_2` FOREIGN KEY (`user_id`) REFERENCES `users` (`id`)\n) ENGINE=InnoDB;\n"

/-- The example table with its one foreign key listed twice. -/
def dupFkTable : Table :=
  ⟨str "u", [(str "user_id", userIdColumn)], [fkConstraint "fk_1", fkConstraint "fk_1"], none, none⟩

/-- A CREATE TABLE statement whose options tail starts with `TYPE=`, not
`ENGINE`. -/
def dumpTypeOptions : Str := str "CREATE TABLE `t` (`a` int) TYPE=MyISAM;\n"

/-- The same statement with a regular `ENGINE` options tail. -/
def dumpEngineOptions : Str := str "CREATE TABLE `t` (`a` int) ENGINE=MyISAM;\n"

/-- What the parser builds from `dumpEngineOptions`. -/
def tableT : Table := ⟨str "t", [(str "a", ⟨str "a", str "int", true, none, []⟩)], [], none, none⟩

/-! ### Membership lemmas -/

lemma memB_iff {κ : Type} [DecidableEq κ] (k : κ) (l : List κ) : memB k l = true ↔ k ∈ l := by
  unfold memB
  exact decide_eq_true_iff

lemma mem_insSorted {α : Type} (lt : α → α → Bool) (x y : α) (l : List α) :
    y ∈ insSorted lt x l ↔ y = x ∨ y ∈ l := by
  induction l with
  | nil => simp [insSorted]
  | cons z zs ih =>
    simp only [insSorted]
    split
    · simp only [List.mem_cons, ih]
      tauto
    · simp only [List.mem_cons]

lemma mem_sortBy {α : Type} (lt : α → α → Bool) (l : List α) (y : α) :
    y ∈ sortBy lt l ↔ y ∈ l := by
  induction l with
  | nil => simp [sortBy]
  | cons z zs ih =>
    rw [show sortBy lt (z :: zs) = insSorted lt z (sortBy lt zs) from rfl, mem_insSorted]
    simp [ih]

lemma filter_not_memB_self {κ : Type} [DecidableEq κ] (l : List κ) :
    l.filter (fun a => !(memB a l)) = [] := by
  apply List.filter_eq_nil_iff.mpr
  intro a ha
  simp [memB, ha]

lemma catMap_eq_nil {α β : Type} (f : α → List β) (h : ∀ a, f a = []) (l : List α) :
    catMap f l = [] := by
  induction l with
  | nil => rfl
  | cons x xs ih => simp [catMap, h, ih]

lemma insertA_mem {κ α : Type} [DecidableEq κ] (k : κ) (v : α) (m : List (κ × α))
    (p : κ × α) (hp : p ∈ insertA k v m) : p = (k, v) ∨ p ∈ m := by
  induction m with
  | nil => simpa [insertA] using hp
  | cons q rest ih =>
    obtain ⟨k2, v2⟩ := q
    simp only [insertA] at hp
    split at hp
    · rcases List.mem_cons.mp hp with h | h
      · exact Or.inl h
      · exact Or.inr (List.mem_cons_of_mem _ h)
    · rcases List.mem_cons.mp hp with h | h
      · exact Or.inr (h ▸ List.mem_cons_self _ _)
      · rcases ih h with h2 | h2
        · exact Or.inl h2
        · exact Or.inr (List.mem_cons_of_mem _ h2)

/-! ### The diff of a schema against itself -/

lemma colPairLines_self (t : Table) (c : Str) : colPairLines t t c = [] := by
  unfold colPairLines
  cases h : lookupA c t.columns <;> simp [colModLines]

lemma missingConstraintKeys_self (t : Table) : missingConstraintKeys t t = [] := by
  unfold missingConstraintKeys
  rw [filter_not_memB_self]
  rfl

lemma extraConstraintKeys_self (t : Table) : extraConstraintKeys t t = [] := by
  unfold extraConstraintKeys
  rw [filter_not_memB_self]
  rfl

lemma constraintDiffLines_self (t : Table) : constraintDiffLines t t = [] := by
  unfold constraintDiffLines
  rw [missingConstraintKeys_self, extraConstraintKeys_self]
  rfl

lemma tableDiffLines_self (t : Table) : tableDiffLines t t = [] := by
  unfold tableDiffLines
  rw [filter_not_memB_self, constraintDiffLines_self,
    catMap_eq_nil (colPairLines t t) (colPairLines_self t)]
  simp

lemma tableBlock_self (S : Schema) (nm : Str) : tableBlock S S nm = [] := by
  unfold tableBlock
  cases h : lookupA nm S <;> simp [tableDiffLines_self]

lemma removedTableNames_self (S : Schema) : removedTableNames S S = [] := by
  unfold removedTableNames
  rw [filter_not_memB_self]
  rfl

lemma addedTableNames_self (S : Schema) : addedTableNames S S = [] := by
  unfold addedTableNames
  rw [filter_not_memB_self]
  rfl

lemma compareSchemas_self (S : Schema) : compareSchemas S S = sentinel := by
  unfold compareSchemas
  rw [removedTableNames_self, addedTableNames_self,
    catMap_eq_nil (tableBlock S S) (tableBlock_self S)]
  rfl

/-! ### Constraint identity keys in the differ -/

lemma mem_missingConstraintKeys (t1 t2 : Table) (k : Str × List Str) :
    k ∈ missingConstraintKeys t1 t2 ↔
      k ∈ keysA (constraintMap t1.constraints) ∧ k ∉ keysA (constraintMap t2.constraints) := by
  unfold missingConstraintKeys
  rw [mem_sortBy, List.mem_filter]
  simp [memB]

lemma mem_extraConstraintKeys (t1 t2 : Table) (k : Str × List Str) :
    k ∈ extraConstraintKeys t1 t2 ↔
      k ∈ keysA (constraintMap t2.constraints) ∧ k ∉ keysA (constraintMap t1.constraints) := by
  unfold extraConstraintKeys
  rw [mem_sortBy, List.mem_filter]
  simp [memB]

/-! ### Structural equality of tables -/

lemma constraintBEq_iff (a b : Constraint) : constraintBEq a b = true ↔ a = b := by
  obtain ⟨n1, t1, c1, r1, rc1⟩ := a
  obtain ⟨n2, t2, c2, r2, rc2⟩ := b
  simp [constraintBEq, Constraint.mk.injEq, and_assoc]

lemma constraintSetEq_iff (xs ys : List Constraint) :
    constraintSetEq xs ys = true ↔ (∀ c : Constraint, c ∈ xs ↔ c ∈ ys) := by
  unfold constraintSetEq
  rw [Bool.and_eq_true, List.all_eq_true, List.all_eq_true]
  constructor
  · rintro ⟨hxy, hyx⟩ c
    constructor
    · intro hc
      obtain ⟨y, hy, he⟩ := List.any_eq_true.mp (hxy c hc)
      exact (constraintBEq_iff c y).mp he ▸ hy
    · intro hc
      obtain ⟨x, hx, he⟩ := List.any_eq_true.mp (hyx c hc)
      exact ((constraintBEq_iff x c).mp he).symm ▸ hx
  · intro hiff
    constructor
    · intro x hx
      exact List.any_eq_true.mpr ⟨x, (hiff x).mp hx, (constraintBEq_iff x x).mpr rfl⟩
    · intro y hy
      exact List.any_eq_true.mpr ⟨y, (hiff y).mpr hy, (constraintBEq_iff y y).mpr rfl⟩

/-! ### Every parsed constraint's reference fields match its kind -/

/-- The C9 invariant for one constraint. -/
def refsMatchKind (c : Constraint) : Prop :=
  (c.referenced_table.isSome = true ∧ c.referenced_columns.isSome = true) ↔
    c.constraint_type = str "FOREIGN KEY"

lemma tryConstraints_refs (acc : List (Str × Column) × List Constraint) (line : Str)
    (c : Constraint) (hc : c ∈ (tryConstraints acc line).2) : c ∈ acc.2 ∨ refsMatchKind c := by
  unfold tryConstraints at hc
  rcases hpk : matchPK line with _ | cols <;> rw [hpk] at hc
  case some =>
    rcases List.mem_append.mp hc with h | h
    · exact Or.inl h
    · simp only [List.mem_singleton] at h
      subst h
      exact Or.inr (iff_of_false (by simp)
        (by show ¬ str "PRIMARY KEY" = str "FOREIGN KEY"; decide))
  rcases hu : matchUnique line with _ | p <;> rw [hu] at hc
  case some =>
    obtain ⟨nm, cols⟩ := p
    rcases List.mem_append.mp hc with h | h
    · exact Or.inl h
    · simp only [List.mem_singleton] at h
      subst h
      exact Or.inr (iff_of_false (by simp)
        (by show ¬ str "UNIQUE" = str "FOREIGN KEY"; decide))
  rcases hf : matchFK line with _ | q <;> rw [hf] at hc
  case some =>
    obtain ⟨nm, cols, rt, rcols⟩ := q
    rcases List.mem_append.mp hc with h | h
    · exact Or.inl h
    · simp only [List.mem_singleton] at h
      subst h
      exact Or.inr (iff_of_true (by simp) rfl)
  rcases hi : matchIdx line with _ | p2 <;> rw [hi] at hc
  case some =>
    obtain ⟨nm, cols⟩ := p2
    rcases List.mem_append.mp hc with h | h
    · exact Or.inl h
    · simp only [List.mem_singleton] at h
      subst h
      exact Or.inr (iff_of_false (by simp)
        (by show ¬ str "INDEX" = str "FOREIGN KEY"; decide))
  exact Or.inl hc

lemma parseBodyLine_refs (acc : List (Str × Column) × List Constraint) (line : Str)
    (c : Constraint) (hc : c ∈ (parseBodyLine acc line).2) : c ∈ acc.2 ∨ refsMatchKind c := by
  unfold parseBodyLine at hc
  split at hc
  · rcases h : parseColumnLine (stripPy line) with _ | col <;> rw [h] at hc
    · exact tryConstraints_refs _ _ _ hc
    · exact Or.inl hc
  · exact tryConstraints_refs _ _ _ hc

lemma foldl_parseBodyLine_refs (lines : List Str) :
    ∀ (acc : List (Str × Column) × List Constraint),
      (∀ c ∈ acc.2, refsMatchKind c) →
      ∀ c ∈ (lines.foldl parseBodyLine acc).2, refsMatchKind c := by
  induction lines with
  | nil => intro acc h c hc; exact h c hc
  | cons l ls ih =>
    intro acc h c hc
    refine ih (parseBodyLine acc l) ?_ c hc
    intro c2 hc2
    rcases parseBodyLine_refs acc l c2 hc2 with h2 | h2
    · exact h c2 h2
    · exact h2

lemma buildTable_refs (nm body opts : Str) (c : Constraint)
    (hc : c ∈ (buildTable nm body opts).constraints) : refsMatchKind c := by
  unfold buildTable at hc
  exact foldl_parseBodyLine_refs (segmentLines body) ([], []) (by simp) c hc

lemma parseDumpTables_refs (content : Str) (nm : Str) (t : Table)
    (ht : (nm, t) ∈ parseDumpTables content) (c : Constraint) (hc : c ∈ t.constraints) :
    refsMatchKind c := by
  unfold parseDumpTables at ht
  suffices h : ∀ (ms : List (Str × Str × Str)) (acc : Schema),
      (∀ q ∈ acc, ∀ c2 ∈ (Prod.snd q).constraints, refsMatchKind c2) →
      ∀ q ∈ ms.foldl (fun acc m => insertA m.1 (buildTable m.1 m.2.1 m.2.2) acc) acc,
        ∀ c2 ∈ (Prod.snd q).constraints, refsMatchKind c2 by
    exact h (findCreates content) [] (by simp) (nm, t) ht c hc
  intro ms
  induction ms with
  | nil => intro acc h q hq c2 hc2; exact h q hq c2 hc2
  | cons m rest ih =>
    intro acc h q hq c2 hc2
    refine ih _ ?_ q hq c2 hc2
    intro q2 hq2 c3 hc3
    rcases insertA_mem _ _ _ _ hq2 with h2 | h2
    · subst h2
      exact buildTable_refs _ _ _ c3 hc3
    · exact h q2 h2 c3 hc3

/-! ### Every match of the CREATE TABLE pattern has an ENGINE options tail -/

lemma matchTailAfterParen_opts (s o r : Str) (h : matchTailAfterParen s = some (o, r)) :
    (str "ENGINE") <+: o := by
  unfold matchTailAfterParen at h
  split at h
  · cases hs : scanSemi ((s.dropWhile pyIsSpace).drop 6) with
    | none => rw [hs] at h; simp at h
    | some p =>
      obtain ⟨g, rest⟩ := p
      rw [hs] at h
      cases h
      exact List.prefix_append _ _
  · simp at h

lemma scanBody_opts : ∀ (s acc b o r : Str), scanBody acc s = some (b, o, r) →
    (str "ENGINE") <+: o := by
  intro s
  induction s with
  | nil => intro acc b o r h; simp [scanBody] at h
  | cons c rest ih =>
    intro acc b o r h
    simp only [scanBody] at h
    split at h
    · cases ht : matchTailAfterParen rest with
      | none => rw [ht] at h; exact ih _ _ _ _ h
      | some p =>
        obtain ⟨opts, r2⟩ := p
        rw [ht] at h
        cases h
        exact matchTailAfterParen_opts _ _ _ ht
    · exact ih _ _ _ _ h

lemma matchCreateAt_opts (s nm b o r : Str) (h : matchCreateAt s = some (nm, b, o, r)) :
    (str "ENGINE") <+: o := by
  unfold matchCreateAt at h
  rw [Option.bind_eq_some] at h
  obtain ⟨s1, _, h⟩ := h
  rw [Option.bind_eq_some] at h
  obtain ⟨s2, _, h⟩ := h
  rw [Option.bind_eq_some] at h
  obtain ⟨p, _, h⟩ := h
  rw [Option.bind_eq_some] at h
  obtain ⟨s4, _, h⟩ := h
  cases s4 with
  | nil => simp at h
  | cons c rest =>
    simp only at h
    split at h
    · rw [Option.map_eq_some'] at h
      obtain ⟨q, h5, hq⟩ := h
      obtain ⟨body, opts, rest2⟩ := q
      simp only [Prod.mk.injEq] at hq
      exact hq.2.2.1 ▸ scanBody_opts _ _ _ _ _ h5
    · simp at h

lemma findCreatesAux_opts : ∀ (n : Nat) (s : Str) (m : Str × Str × Str),
    m ∈ findCreatesAux n s → (str "ENGINE") <+: m.2.2 := by
  intro n
  induction n with
  | zero => intro s m hm; simp [findCreatesAux] at hm
  | succ n ih =>
    intro s m hm
    cases s with
    | nil => simp [findCreatesAux] at hm
    | cons c rest =>
      simp only [findCreatesAux] at hm
      cases h : matchCreateAt (c :: rest) with
      | none =>
        rw [h] at hm
        exact ih rest m hm
      | some q =>
        obtain ⟨nm, body, opts, restAfter⟩ := q
        rw [h] at hm
        rcases List.mem_cons.mp hm with h2 | h2
        · subst h2
          exact matchCreateAt_opts _ _ _ _ _ h
        · exact ih restAfter m h2

lemma findCreates_opts (s : Str) (m : Str × Str × Str) (hm : m ∈ findCreates s) :
    (str "ENGINE") <+: m.2.2 :=
  findCreatesAux_opts _ s m hm

/-! ### The claims -/

set_option maxRecDepth 100000

/-- C1: the differ correlates constraints of a common table by the
identity key `(kind, columns)`, not by name.  A key present on both sides
is reported neither removed nor added; a key present on one side only is
reported removed (first side) or added (second side); and the two dumps
differing only in the foreign key's declared name (`fk_1` vs `fk_2`)
produce the no-difference sentinel. -/
theorem constraint_identity_correlation :
    (∀ (t1 t2 : Table) (k : Str × List Str),
      (k ∈ keysA (constraintMap t1.constraints) → k ∈ keysA (constraintMap t2.constraints) →
        k ∉ missingConstraintKeys t1 t2 ∧ k ∉ extraConstraintKeys t1 t2) ∧
      (k ∈ keysA (constraintMap t1.constraints) → k ∉ keysA (constraintMap t2.constraints) →
        k ∈ missingConstraintKeys t1 t2) ∧
      (k ∉ keysA (constraintMap t1.constraints) → k ∈ keysA (constraintMap t2.constraints) →
        k ∈ extraConstraintKeys t1 t2)) ∧
    compareSchemas (parseDumpTables dumpFk1) (parseDumpTables dumpFk2) = sentinel := by
  constructor
  · intro t1 t2 k
    refine ⟨?_, ?_, ?_⟩
    · intro h1 h2
      constructor
      · intro hm
        exact ((mem_missingConstraintKeys t1 t2 k).mp hm).2 h2
      · intro hm
        exact ((mem_extraConstraintKeys t1 t2 k).mp hm).2 h1
    · intro h1 h2
      exact (mem_missingConstraintKeys t1 t2 k).mpr ⟨h1, h2⟩
    · intro h1 h2
      exact (mem_extraConstraintKeys t1 t2 k).mpr ⟨h2, h1⟩
  · decide

/-- C2: the column clause `` `id` int(11) NOT NULL AUTO_INCREMENT ``
parses to exactly the Column (id, int(11), not nullable, no default,
extra AUTO_INCREMENT). -/
theorem parse_int_column_clause :
    parseColumnLine (str "`id` int(11) NOT NULL AUTO_INCREMENT") =
      some ⟨str "id", str "int(11)", false, none, str "AUTO_INCREMENT"⟩ := by
  decide

/-- C3: the column clause `` `status` enum('a','b','c') NOT NULL DEFAULT 'a' ``
parses to a Column whose data type is exactly `enum('a','b','c')`, not
nullable, with default `'a'` (quotes included). -/
theorem parse_enum_column_clause :
    parseColumnLine (str "`status` enum('a','b','c') NOT NULL DEFAULT 'a'") =
      some ⟨str "status", str "enum('a','b','c')", false, some (str "'a'"), []⟩ := by
  decide

/-- C4 (amended): the completeness predicate holds exactly as defined by
the three rules with rule one reading the text strictly between the first
occurrence of `REFERENCES` and the next one (to the end when it occurs
once), and rule three asking only for a backtick character, not a whole
backtick-quoted identifier. -/
theorem line_completeness_rules (line : Str) :
    isLineComplete line = amendedLineComplete line := rfl

/-- C4 counterexample: on `a ` b` the code's predicate is complete though
the fragment holds no backtick-quoted identifier (so the claim's three
rules leave it pending), and on `CONSTRAINT REFERENCES REFERENCES )` the
code's predicate is pending though the claim's first rule (a closing
parenthesis anywhere after `REFERENCES`) declares it complete. -/
theorem line_completeness_claim_cex :
    (isLineComplete (str "a ` b") = true ∧ claimLineComplete (str "a ` b") = false) ∧
    (isLineComplete (str "CONSTRAINT REFERENCES REFERENCES )") = false ∧
      claimLineComplete (str "CONSTRAINT REFERENCES REFERENCES )") = true) := by
  decide

/-- C5: diffing the schema parsed from any dump against the schema parsed
from the same dump yields exactly the no-difference sentinel. -/
theorem diff_self_is_sentinel (content : Str) :
    compareSchemas (parseDumpTables content) (parseDumpTables content) = sentinel :=
  compareSchemas_self _

/-- C6: a table is reported added by the diff of A against B exactly when
it is reported removed by the diff of B against A, and vice versa. -/
theorem added_removed_symmetric (A B : Schema) (T : Str) :
    (T ∈ addedTableNames A B ↔ T ∈ removedTableNames B A) ∧
    (T ∈ removedTableNames A B ↔ T ∈ addedTableNames B A) :=
  ⟨Iff.rfl, Iff.rfl⟩

/-- C7 (amended): for two Tables equal on name, columns, charset and
collation, `Table.__eq__` holds iff the two constraint sequences contain
the same constraints as sets under full structural equality (the declared
name included) — order and duplication do not matter, but a renamed
constraint does. -/
theorem table_eq_constraint_sets (t1 t2 : Table) (h1 : t1.name = t2.name)
    (h2 : columnsDictEq t1.columns t2.columns = true) (h3 : t1.charset = t2.charset)
    (h4 : t1.collation = t2.collation) :
    tableBEq t1 t2 = true ↔ (∀ c : Constraint, c ∈ t1.constraints ↔ c ∈ t2.constraints) := by
  unfold tableBEq
  simp only [h1, h2, h3, h4, Bool.and_eq_true, decide_eq_true_eq, constraintSetEq_iff,
    true_and, and_true]

/-- C7 counterexample: two tables equal on name, columns, charset and
collation whose constraint sequences cover the same identity-key set but
declare different names (`fk_1` vs `fk_2`) are not equal under
`Table.__eq__`. -/
theorem table_eq_identity_claim_cex :
    (fkTable "fk_1").name = (fkTable "fk_2").name ∧
    columnsDictEq (fkTable "fk_1").columns (fkTable "fk_2").columns = true ∧
    (fkTable "fk_1").charset = (fkTable "fk_2").charset ∧
    (fkTable "fk_1").collation = (fkTable "fk_2").collation ∧
    keysA (constraintMap (fkTable "fk_1").constraints) =
      keysA (constraintMap (fkTable "fk_2").constraints) ∧
    tableBEq (fkTable "fk_1") (fkTable "fk_2") = false := by
  decide

/-- C7 witness: the amended equivalence at a concrete pair (one table
listing its foreign key twice, the other once). -/
theorem table_eq_constraint_sets_witness :
    tableBEq dupFkTable (fkTable "fk_1") = true ↔
      (∀ c : Constraint, c ∈ dupFkTable.constraints ↔ c ∈ (fkTable "fk_1").constraints) :=
  table_eq_constraint_sets dupFkTable (fkTable "fk_1") (by decide) (by decide) (by decide)
    (by decide)

/-- C8: on a path with no file behind it the parser yields the
missing-file error and never a schema. -/
theorem missing_file_error (fs : String → Option Str) (path : String) (h : fs path = none) :
    parseDumpFile fs path = Except.error (DumpError.missingFile path) ∧
    ∀ S : Schema, parseDumpFile fs path ≠ Except.ok S := by
  unfold parseDumpFile
  rw [h]
  exact ⟨rfl, fun S hS => Except.noConfusion hS⟩

/-- C8 witness: the theorem at the empty file system. -/
theorem missing_file_error_witness :
    parseDumpFile (fun _ => none) "missing.sql" =
      Except.error (DumpError.missingFile "missing.sql") ∧
    ∀ S : Schema, parseDumpFile (fun _ => none) "missing.sql" ≠ Except.ok S :=
  missing_file_error (fun _ => none) "missing.sql" rfl

/-- C9: every constraint of every table of every parsed dump has its
referenced table and referenced columns populated exactly when its kind is
FOREIGN KEY. -/
theorem parsed_constraint_refs_iff_fk (content : Str) (nm : Str) (t : Table)
    (ht : (nm, t) ∈ parseDumpTables content) (c : Constraint) (hc : c ∈ t.constraints) :
    (c.referenced_table.isSome = true ∧ c.referenced_columns.isSome = true) ↔
      c.constraint_type = str "FOREIGN KEY" :=
  parseDumpTables_refs content nm t ht c hc

/-- C9 witness: the theorem at the foreign-key constraint of the parsed
`dumpFk1`. -/
theorem parsed_constraint_refs_iff_fk_witness :
    ((fkConstraint "fk_1").referenced_table.isSome = true ∧
      (fkConstraint "fk_1").referenced_columns.isSome = true) ↔
      (fkConstraint "fk_1").constraint_type = str "FOREIGN KEY" :=
  parsed_constraint_refs_iff_fk dumpFk1 (str "u") (fkTable "fk_1") (by decide)
    (fkConstraint "fk_1") (by decide)

/-- C10: every match of the CREATE TABLE pattern carries an options tail
beginning with the literal `ENGINE`; a statement whose tail starts with
`TYPE=` instead is silently not recognized (the parse succeeds with no
table), while the same statement with an `ENGINE` tail yields its table. -/
theorem create_table_requires_engine :
    (∀ (content nm body opts : Str), (nm, body, opts) ∈ findCreates content →
      (str "ENGINE") <+: opts) ∧
    parseDumpTables dumpTypeOptions = [] ∧
    parseDumpTables dumpEngineOptions = [(str "t", tableT)] := by
  refine ⟨?_, by decide, by decide⟩
  intro content nm body opts hm
  exact findCreates_opts content (nm, body, opts) hm

end SqlDiff
